import Mathlib

/-!
Shallow embedding of the shape-geometry core of the KaliDraw drawing
application: the shape data model, hit testing, bounding boxes, resize
handles and the resize transform, translated from the shapeUtils modules
(ShapeDetection.js and the resize module re-exported through
shapeUtils/index.js) and from the legacy standalone implementation in
helpers/shapeManipulation.js.

Numbers are modeled as an arbitrary linear ordered field with a floor
function and instantiated at the real numbers in the theorems.  The JS
Math.sqrt call is an explicit function argument (instantiated with
Real.sqrt), and the DOM canvas measureText call is an explicit function
argument taking the font style, the font weight, the font size and the
line being measured, since a text-shaping backend is outside the
geometry core.
-/

namespace KaliDraw

/-- A 2D point, the JS object with fields x and y. -/
structure Pt (K : Type) where
  x : K
  y : K
deriving DecidableEq

/-- A bounding box object with fields x, y, width, height. -/
structure Box (K : Type) where
  x : K
  y : K
  width : K
  height : K
deriving DecidableEq

/-- The eight resize handle names used by the resize engine. -/
inductive Handle where
  | topLeft
  | topCenter
  | topRight
  | middleLeft
  | middleRight
  | bottomLeft
  | bottomCenter
  | bottomRight
deriving DecidableEq

/-- The shape tagged union of the data model: Rectangle, Circle, Pencil and
Text, with the fields produced by the drawing factories.  A pencil shape
carries only its points and color (no x, y, width or height fields), which
matters for the JS property-presence checks and fallbacks. -/
inductive Shape (K : Type) where
  | rect (id color : String) (x y width height : K)
  | circle (id color : String) (x y radius : K)
  | pencil (id color : String) (points : List (Pt K))
  | text (id color : String) (x y width height : K) (content : Option String)
      (fontSize : Option K) (align verticalAlign fontWeight fontStyle : Option String)

/-- A named handle entry as returned by getShapeResizeHandles. -/
structure NamedHandle (K : Type) where
  name : Handle
  x : K
  y : K

/-- Type of the canvas measureText collaborator: font style, font weight,
font size, line to measure. -/
abbrev MeasureFn (K : Type) := String → String → K → String → K

variable {K : Type} [LinearOrderedField K] [FloorRing K]

/-- JS falsy-or on an optional number: v or d where undefined and 0 are falsy. -/
def jsOrNum (v : Option K) (d : K) : K :=
  match v with
  | none => d
  | some a => if a = 0 then d else a

/-- JS falsy-or on an optional string: v or d where undefined and the empty
string are falsy. -/
def jsOrStr (v : Option String) (d : String) : String :=
  match v with
  | none => d
  | some s => if s = "" then d else s

/-- Splitting a character list at every occurrence of a separator
character; an empty input yields one empty piece, like the JS
String.split. -/
def splitCharsOn (sep : Char) : List Char → List (List Char)
  | [] => [[]]
  | c :: cs =>
      if c = sep then [] :: splitCharsOn sep cs
      else
        match splitCharsOn sep cs with
        | [] => [[c]]
        | l :: ls => (c :: l) :: ls

/-- The JS text.split on the newline character, as used by the text
measurement paths. -/
def splitOnNewline (s : String) : List String :=
  (splitCharsOn (Char.ofNat 10) s.data).map (fun l => String.mk l)

/-- The JS type discriminant string of a shape. -/
def typeName : Shape K → String
  | .rect _ _ _ _ _ _ => "rectangle"
  | .circle _ _ _ _ _ => "circle"
  | .pencil _ _ _ => "pencil"
  | .text _ _ _ _ _ _ _ _ _ _ _ _ => "text"

/-- The id field of a shape. -/
def idOf : Shape K → String
  | .rect i _ _ _ _ _ => i
  | .circle i _ _ _ _ => i
  | .pencil i _ _ => i
  | .text i _ _ _ _ _ _ _ _ _ _ _ => i

/-- The color field of a shape. -/
def colorOf : Shape K → String
  | .rect _ c _ _ _ _ => c
  | .circle _ c _ _ _ => c
  | .pencil _ c _ => c
  | .text _ c _ _ _ _ _ _ _ _ _ _ => c

/-- The x field of a shape (a pencil shape has none; the accessor is only
used on rectangle, circle and text shapes). -/
def xOf : Shape K → K
  | .rect _ _ x _ _ _ => x
  | .circle _ _ x _ _ => x
  | .pencil _ _ _ => 0
  | .text _ _ x _ _ _ _ _ _ _ _ _ => x

/-- The y field of a shape. -/
def yOf : Shape K → K
  | .rect _ _ _ y _ _ => y
  | .circle _ _ _ y _ => y
  | .pencil _ _ _ => 0
  | .text _ _ _ y _ _ _ _ _ _ _ _ => y

/-- The width field of a shape. -/
def widthOf : Shape K → K
  | .rect _ _ _ _ w _ => w
  | .circle _ _ _ _ _ => 0
  | .pencil _ _ _ => 0
  | .text _ _ _ _ w _ _ _ _ _ _ _ => w

/-- The height field of a shape. -/
def heightOf : Shape K → K
  | .rect _ _ _ _ _ h => h
  | .circle _ _ _ _ _ => 0
  | .pencil _ _ _ => 0
  | .text _ _ _ _ _ h _ _ _ _ _ _ => h

/-- The radius field of a shape (only a circle has one). -/
def radiusOf : Shape K → K
  | .circle _ _ _ _ r => r
  | _ => 0

/-- The fontSize field of a shape (only a text shape has one). -/
def fontSizeOf : Shape K → Option K
  | .text _ _ _ _ _ _ _ fs _ _ _ _ => fs
  | _ => none

/-- The text content field of a shape. -/
def contentOf : Shape K → Option String
  | .text _ _ _ _ _ _ t _ _ _ _ _ => t
  | _ => none

/-- The points field of a shape (only a pencil has one). -/
def pointsOf : Shape K → List (Pt K)
  | .pencil _ _ ps => ps
  | _ => []

/-- The fontWeight field of a shape. -/
def fontWeightOf : Shape K → Option String
  | .text _ _ _ _ _ _ _ _ _ _ fw _ => fw
  | _ => none

/-- The fontStyle field of a shape. -/
def fontStyleOf : Shape K → Option String
  | .text _ _ _ _ _ _ _ _ _ _ _ fs => fs
  | _ => none

/-- getCircleCenter from ShapeGeometry.js: for a non-circle (or null) it
returns the origin, for a circle with x, y and radius fields it returns
(x + radius, y + radius). -/
def getCircleCenter : Option (Shape K) → Pt K
  | some (.circle _ _ x y r) => ⟨x + r, y + r⟩
  | _ => ⟨0, 0⟩

/-- The core of getShapeBoundingBox from ShapeDetection.js on a non-null
shape: rectangle and text return their own x, y, width, height; a circle
returns x, y, radius*2, radius*2; every other shape falls through to the
fallback which reads the (absent) x, y, width, height fields with a
falsy-or of 0, so a pencil gets the zero box. -/
def boundingBox : Shape K → Box K
  | .rect _ _ x y w h => ⟨x, y, w, h⟩
  | .text _ _ x y w h _ _ _ _ _ _ => ⟨x, y, w, h⟩
  | .circle _ _ x y r => ⟨x, y, r * 2, r * 2⟩
  | .pencil _ _ _ => ⟨0, 0, 0, 0⟩

/-- getShapeBoundingBox from ShapeDetection.js (the version re-exported by
shapeUtils/index.js and the shapeManipulation.js wrapper): on a null shape
it returns null, otherwise the bounding box.  Totality of this definition
reflects that the JS function never throws. -/
def getShapeBoundingBox : Option (Shape K) → Option (Box K)
  | none => none
  | some s => some (boundingBox s)

/-- getShapeBoundingBox from the legacy standalone shapeManipulation.js
implementation: on a null shape it returns the zero box; a pencil with at
least one point gets the min/max reduction over its points; a circle is
treated center-anchored there (x - radius, y - radius); a text box is
measured from fontSize and content with an average character width
heuristic and centered on (x, y). -/
def getShapeBoundingBoxLegacy : Option (Shape K) → Box K
  | none => ⟨0, 0, 0, 0⟩
  | some (.rect _ _ x y w h) => ⟨x, y, w, h⟩
  | some (.circle _ _ x y r) => ⟨x - r, y - r, r * 2, r * 2⟩
  | some (.pencil _ _ []) => ⟨0, 0, 0, 0⟩
  | some (.pencil _ _ (p0 :: rest)) =>
      let minX := rest.foldl (fun m q => min m q.x) p0.x
      let maxX := rest.foldl (fun m q => max m q.x) p0.x
      let minY := rest.foldl (fun m q => min m q.y) p0.y
      let maxY := rest.foldl (fun m q => max m q.y) p0.y
      ⟨minX, minY, maxX - minX, maxY - minY⟩
  | some (.text _ _ x y w h content fontSize _ _ _ _) =>
      let fs := jsOrNum fontSize 16
      let lineHeight := fs * 1.2
      let avgCharWidth := fs * 0.6
      let lines := splitOnNewline (content.getD "")
      let longestLine := lines.foldl (fun m line => max m ((line.length : K))) 0
      let textWidth := if w = 0 then longestLine * avgCharWidth else w
      let textHeight := if h = 0 then (lines.length : K) * lineHeight else h
      ⟨x - textWidth / 2, y - textHeight / 2, textWidth, textHeight⟩

/-- The clamped projection parameter t of the pencil segment hit test in
ShapeDetection.js: the dot product of (point - p1) with (p2 - p1) divided
by the squared segment length, clamped to the unit interval. -/
def segT (point p1 p2 : Pt K) : K :=
  max 0 (min 1 (((point.x - p1.x) * (p2.x - p1.x) + (point.y - p1.y) * (p2.y - p1.y)) /
    ((p2.x - p1.x) ^ 2 + (p2.y - p1.y) ^ 2)))

/-- The pencil branch of isPointInShape: walk consecutive point pairs; a
pair whose squared length is 0 is skipped (the JS continue); otherwise the
point hits if its distance to the clamped projection onto the segment is
at most the tolerance 5. -/
def pencilHit (sqrt : K → K) (point : Pt K) : List (Pt K) → Prop
  | p1 :: p2 :: rest =>
      ((p2.x - p1.x) ^ 2 + (p2.y - p1.y) ^ 2 ≠ 0 ∧
        sqrt ((point.x - (p1.x + segT point p1 p2 * (p2.x - p1.x))) ^ 2 +
          (point.y - (p1.y + segT point p1 p2 * (p2.y - p1.y))) ^ 2) ≤ 5) ∨
      pencilHit sqrt point (p2 :: rest)
  | _ => False

/-- isPointInShape from ShapeDetection.js restricted to the factory-built
shape variants: rectangle and text use the inclusive box test, a circle
compares the distance to its center against the radius, a pencil uses the
segment walk, and a null shape is never hit. -/
def isPointInShape (sqrt : K → K) (point : Pt K) : Option (Shape K) → Prop
  | none => False
  | some (.rect _ _ x y w h) =>
      x ≤ point.x ∧ point.x ≤ x + w ∧ y ≤ point.y ∧ point.y ≤ y + h
  | some (.circle _ _ x y r) =>
      sqrt ((point.x - (x + r)) * (point.x - (x + r)) +
        (point.y - (y + r)) * (point.y - (y + r))) ≤ r
  | some (.pencil _ _ pts) => pencilHit sqrt point pts
  | some (.text _ _ x y w h _ _ _ _ _ _) =>
      x ≤ point.x ∧ point.x ≤ x + w ∧ y ≤ point.y ∧ point.y ≤ y + h

/-- The rectangle/text switch of resizeShape: each handle keeps the
opposite edges where the source computes fixedLeft, fixedRight, fixedTop,
fixedBottom from the current shape, clamps the dragged edge by minSize,
and leaves the untouched fields as copied by the object spread. -/
def resizeBox (minSize x y w h : K) (handle : Handle) (point : Pt K) : Box K :=
  match handle with
  | .topLeft =>
      let fixedRight := x + w
      let fixedBottom := y + h
      let nx := min point.x (fixedRight - minSize)
      let ny := min point.y (fixedBottom - minSize)
      ⟨nx, ny, fixedRight - nx, fixedBottom - ny⟩
  | .topCenter =>
      let fixedBottom := y + h
      let ny := min point.y (fixedBottom - minSize)
      ⟨x, ny, w, fixedBottom - ny⟩
  | .topRight =>
      let fixedBottom := y + h
      let ny := min point.y (fixedBottom - minSize)
      ⟨x, ny, max (point.x - x) minSize, fixedBottom - ny⟩
  | .middleLeft =>
      let fixedRight := x + w
      let nx := min point.x (fixedRight - minSize)
      ⟨nx, y, fixedRight - nx, h⟩
  | .middleRight =>
      ⟨x, y, max (point.x - x) minSize, h⟩
  | .bottomLeft =>
      let fixedRight := x + w
      let nx := min point.x (fixedRight - minSize)
      ⟨nx, y, fixedRight - nx, max (point.y - y) minSize⟩
  | .bottomCenter =>
      ⟨x, y, w, max (point.y - y) minSize⟩
  | .bottomRight =>
      ⟨x, y, max (point.x - x) minSize, max (point.y - y) minSize⟩

/-- MIN_SIZE for a text shape: Math.max(20, shape.text?.length * 2 or 20),
where an absent text gives NaN (falsy) and an empty text gives 0 (falsy),
both replaced by 20. -/
def textMinSize (content : Option String) : K :=
  max 20 (match content with
    | none => 20
    | some s => if s.length = 0 then 20 else (s.length : K) * 2)

/-- The lines of a text shape: shape.text?.split on newline, or a single
empty line when the text is absent. -/
def textLines (content : Option String) : List String :=
  match content with
  | none => [""]
  | some s => splitOnNewline s

/-- The damped font scale computation of the text resize: widthScale and
heightScale against the pre-resize dimensions, their average damped with
factor 0.5, applied to the base font size (fontSize or 16), rounded and
clamped to the range 8 to 200. -/
def textNewFontSize (fontSize : Option K) (oldW oldH newW newH : K) : K :=
  let widthScale := newW / oldW
  let heightScale := newH / oldH
  let rawScaleFactor := (widthScale + heightScale) / 2
  let dampedScaleFactor := 1 * (1 - (0.5 : K)) + rawScaleFactor * 0.5
  let baseFontSize := jsOrNum fontSize 16
  ((max 8 (min 200 (round (baseFontSize * dampedScaleFactor))) : ℤ) : K)

/-- The maximum measured line width of a text shape at the new font size:
fold of Math.max over measureText of each line, an empty line measured as
a single space, starting from 0. -/
def textMaxLineWidth (measure : MeasureFn K) (style weight : String) (nf : K)
    (content : Option String) : K :=
  (textLines content).foldl
    (fun acc line => max acc (measure style weight nf (if line = "" then " " else line))) 0

/-- The minimum container width for a text shape: the maximum line width
plus twice the horizontal padding fontSize*1.2, at least 80. -/
def textMinWidth (measure : MeasureFn K) (style weight : String) (nf : K)
    (content : Option String) : K :=
  max (textMaxLineWidth measure style weight nf content + (nf * 1.2) * 2) 80

/-- The minimum container height for a text shape: the line height
fontSize*1.2 times the line count plus twice the vertical padding
fontSize*0.8, at least 40. -/
def textMinHeight (nf : K) (content : Option String) : K :=
  max ((nf * 1.2) * ((textLines content).length : K) + (nf * 0.8) * 2) 40

/-- resizeShape from the resize module re-exported by shapeUtils/index.js
(the version with damped font scaling and the text minimum-size clamp).
A rectangle or text first goes through the handle switch with its MIN_SIZE;
a text shape then gets the damped font size from the pre-resize dimensions,
its width and height enlarged to the measured text minimum, and its
alignment defaults filled in; a circle ignores the handle and recomputes
its radius from the distance of the drag point to its center, re-deriving
x and y from the unchanged center; any other shape is returned as the
plain spread copy.  The unused dragStart argument mirrors the source
signature. -/
def resizeShape (sqrt : K → K) (measure : MeasureFn K) (shape : Shape K)
    (handle : Handle) (point : Pt K) (_dragStart : Pt K) : Shape K :=
  match shape with
  | .rect i c x y w h =>
      let b := resizeBox 10 x y w h handle point
      .rect i c b.x b.y b.width b.height
  | .text i c x y w h content fontSize align verticalAlign fontWeight fontStyle =>
      let b := resizeBox (textMinSize content) x y w h handle point
      let nf := textNewFontSize fontSize w h b.width b.height
      let style := jsOrStr fontStyle "normal"
      let weight := jsOrStr fontWeight "normal"
      let minWidth := textMinWidth measure style weight nf content
      let minHeight := textMinHeight nf content
      .text i c b.x b.y (max b.width minWidth) (max b.height minHeight) content (some nf)
        (some (jsOrStr align "center")) (some (jsOrStr verticalAlign "middle"))
        fontWeight fontStyle
  | .circle i c x y r =>
      let cx := x + r
      let cy := y + r
      let dx := point.x - cx
      let dy := point.y - cy
      let newRadius := sqrt (dx * dx + dy * dy)
      let finalRadius := max newRadius 1
      .circle i c (cx - finalRadius) (cy - finalRadius) finalRadius
  | .pencil i c pts => .pencil i c pts

/-- getResizeHandle from the resize module: for a null shape null; otherwise
walk the eight candidate positions (corners and edge midpoints of the
bounding box, the outer ones inflated outward by 5) in source order and
return the first whose 12-unit square hit region (half size 6 on each axis)
contains the point. -/
def getResizeHandle (point : Pt K) : Option (Shape K) → Option Handle
  | none => none
  | some s =>
      let b := boundingBox s
      let hs : K := 12 / 2
      if |point.x - (b.x - 5)| ≤ hs ∧ |point.y - (b.y - 5)| ≤ hs then some .topLeft
      else if |point.x - (b.x + b.width / 2)| ≤ hs ∧ |point.y - (b.y - 5)| ≤ hs then
        some .topCenter
      else if |point.x - (b.x + b.width + 5)| ≤ hs ∧ |point.y - (b.y - 5)| ≤ hs then
        some .topRight
      else if |point.x - (b.x - 5)| ≤ hs ∧ |point.y - (b.y + b.height / 2)| ≤ hs then
        some .middleLeft
      else if |point.x - (b.x + b.width + 5)| ≤ hs ∧ |point.y - (b.y + b.height / 2)| ≤ hs then
        some .middleRight
      else if |point.x - (b.x - 5)| ≤ hs ∧ |point.y - (b.y + b.height + 5)| ≤ hs then
        some .bottomLeft
      else if |point.x - (b.x + b.width / 2)| ≤ hs ∧ |point.y - (b.y + b.height + 5)| ≤ hs then
        some .bottomCenter
      else if |point.x - (b.x + b.width + 5)| ≤ hs ∧ |point.y - (b.y + b.height + 5)| ≤ hs then
        some .bottomRight
      else none

/-- getShapeResizeHandles from the resize module: the eight handles on the
bounding box perimeter, corners first and then edge midpoints, in source
order. -/
def getShapeResizeHandles : Option (Shape K) → List (NamedHandle K)
  | none => []
  | some s =>
      let b := boundingBox s
      [⟨.topLeft, b.x, b.y⟩,
       ⟨.topRight, b.x + b.width, b.y⟩,
       ⟨.bottomLeft, b.x, b.y + b.height⟩,
       ⟨.bottomRight, b.x + b.width, b.y + b.height⟩,
       ⟨.topCenter, b.x + b.width / 2, b.y⟩,
       ⟨.middleRight, b.x + b.width, b.y + b.height / 2⟩,
       ⟨.bottomCenter, b.x + b.width / 2, b.y + b.height⟩,
       ⟨.middleLeft, b.x, b.y + b.height / 2⟩]

/-- The point-to-segment distance as the spec words it (section 4.1): the
Euclidean distance from the point to its projection onto the segment with
the projection parameter clamped to the unit interval.  Used to state the
pencil hit-test characterization. -/
def specSegmentDistance (sqrt : K → K) (point a b : Pt K) : K :=
  sqrt ((point.x - (a.x + segT point a b * (b.x - a.x))) ^ 2 +
    (point.y - (a.y + segT point a b * (b.y - a.y))) ^ 2)

/-- The average-character-width measure heuristic the repository itself
uses in the legacy text bounding box (0.6 times the font size per
character), used to instantiate the abstract measureText collaborator in
concrete witnesses. -/
def approxMeasure : MeasureFn K :=
  fun _style _weight size line => size * 0.6 * (line.length : K)

/-! Helper lemmas. -/

theorem round_eq_int (x : ℝ) (n : ℤ) (h1 : (n : ℝ) ≤ x + 1 / 2) (h2 : x + 1 / 2 < (n : ℝ) + 1) :
    round x = n := by
  rw [round_eq]
  exact Int.floor_eq_iff.mpr ⟨h1, h2⟩

theorem sqrt_nine_hundred : Real.sqrt 900 = 30 := by
  rw [show (900 : ℝ) = 30 ^ 2 by norm_num]
  exact Real.sqrt_sq (by norm_num)

/-! C2 — the circle branch of resizeShape ignores the handle name, keeps the
center and recomputes the radius from the drag point. -/

/-- C2: for every circle and every handle, resizeShape ignores the handle
name (and the drag start), returns the circle with radius
max(distance(point, center), 1) and x, y re-derived as center minus the new
radius, so the circle center is unchanged; and the concrete scenario of the
spec, circle x 0 y 0 radius 10 dragged to (10, 40), yields radius 30 and
x = y = -20. -/
theorem resize_circle_uniform :
    (∀ (i c : String) (x y r : ℝ) (m : MeasureFn ℝ) (h h2 : Handle) (p d d2 : Pt ℝ),
      resizeShape Real.sqrt m (Shape.circle i c x y r) h p d =
        Shape.circle i c
          ((x + r) - max (Real.sqrt ((p.x - (x + r)) * (p.x - (x + r)) +
              (p.y - (y + r)) * (p.y - (y + r)))) 1)
          ((y + r) - max (Real.sqrt ((p.x - (x + r)) * (p.x - (x + r)) +
              (p.y - (y + r)) * (p.y - (y + r)))) 1)
          (max (Real.sqrt ((p.x - (x + r)) * (p.x - (x + r)) +
              (p.y - (y + r)) * (p.y - (y + r)))) 1) ∧
      resizeShape Real.sqrt m (Shape.circle i c x y r) h p d =
        resizeShape Real.sqrt m (Shape.circle i c x y r) h2 p d2 ∧
      getCircleCenter (some (resizeShape Real.sqrt m (Shape.circle i c x y r) h p d)) =
        getCircleCenter (some (Shape.circle i c x y r))) ∧
    resizeShape Real.sqrt approxMeasure (Shape.circle "c1" "red" 0 0 10)
        Handle.topRight ⟨10, 40⟩ ⟨0, 0⟩ =
      Shape.circle "c1" "red" (-20) (-20) 30 := by
  constructor
  · intro i c x y r m h h2 p d d2
    refine ⟨rfl, rfl, ?_⟩
    simp only [resizeShape, getCircleCenter]
    congr 1 <;> ring
  · simp only [resizeShape]
    rw [show (10 - ((0 : ℝ) + 10)) * (10 - (0 + 10)) + (40 - (0 + 10)) * (40 - (0 + 10)) = 900
      by norm_num]
    rw [sqrt_nine_hundred]
    norm_num [max_def]

/-! C7 — bounding box of a null shape. -/

/-- C7 (amended): called on a null shape, the getShapeBoundingBox
re-exported from ShapeDetection.js returns null (not the zero box), while
the legacy shapeManipulation.js implementation returns the zero box;
being total functions, neither throws. -/
theorem bbox_null_shape :
    getShapeBoundingBox (K := ℝ) none = none ∧
    getShapeBoundingBoxLegacy (K := ℝ) none = Box.mk 0 0 0 0 :=
  ⟨rfl, rfl⟩

/-- C7 counterexample: the claim says getShapeBoundingBox on a null shape
returns the zero box, but the implementation re-exported from
ShapeDetection.js returns null. -/
theorem bbox_null_shape_cex :
    getShapeBoundingBox (K := ℝ) none ≠ some (Box.mk 0 0 0 0) := by
  simp [getShapeBoundingBox]

/-! C10 — resizeShape only touches geometric fields. -/

/-- C10: for every shape, handle and point, resizeShape preserves the id,
the type discriminant and the color, and also the text content, the stroke
points, the font weight and the font style, so only the geometric fields
(x, y, width, height, radius, fontSize, align, verticalAlign) can differ. -/
theorem resize_preserves_identity (m : MeasureFn ℝ) (s : Shape ℝ) (handle : Handle)
    (p d : Pt ℝ) :
    idOf (resizeShape Real.sqrt m s handle p d) = idOf s ∧
    typeName (resizeShape Real.sqrt m s handle p d) = typeName s ∧
    colorOf (resizeShape Real.sqrt m s handle p d) = colorOf s ∧
    contentOf (resizeShape Real.sqrt m s handle p d) = contentOf s ∧
    pointsOf (resizeShape Real.sqrt m s handle p d) = pointsOf s ∧
    fontWeightOf (resizeShape Real.sqrt m s handle p d) = fontWeightOf s ∧
    fontStyleOf (resizeShape Real.sqrt m s handle p d) = fontStyleOf s := by
  cases s <;>
    simp [resizeShape, idOf, typeName, colorOf, contentOf, pointsOf, fontWeightOf, fontStyleOf]

/-! C4 — the text minimum-container clamp of resizeShape. -/

/-- C4: for every text shape, after the new font size nf is computed, the
width and height coming out of the geometric resize are enlarged, never
shrunk, to at least max(maxLineWidth + 2*(nf*1.2), 80) and
max(nf*1.2*lineCount + 2*(nf*0.8), 40) respectively, so a resize
requesting a smaller box yields the clamped minimum. -/
theorem resize_text_min_container (i c : String) (x y w h : ℝ) (content : Option String)
    (fontSize : Option ℝ) (align valign fw fs : Option String) (m : MeasureFn ℝ)
    (handle : Handle) (p d : Pt ℝ) :
    let b := resizeBox (textMinSize content) x y w h handle p
    let nf := textNewFontSize fontSize w h b.width b.height
    let mlw := textMaxLineWidth m (jsOrStr fs "normal") (jsOrStr fw "normal") nf content
    let r := resizeShape Real.sqrt m
      (Shape.text i c x y w h content fontSize align valign fw fs) handle p d
    widthOf r = max b.width (max (mlw + 2 * (nf * 1.2)) 80) ∧
    heightOf r = max b.height (max (nf * 1.2 * ((textLines content).length : ℝ) +
      2 * (nf * 0.8)) 40) ∧
    b.width ≤ widthOf r ∧ b.height ≤ heightOf r ∧
    max (mlw + 2 * (nf * 1.2)) 80 ≤ widthOf r ∧
    max (nf * 1.2 * ((textLines content).length : ℝ) + 2 * (nf * 0.8)) 40 ≤ heightOf r := by
  simp only [resizeShape, widthOf, heightOf, textMinWidth, textMinHeight]
  have hw : textMaxLineWidth m (jsOrStr fs "normal") (jsOrStr fw "normal")
        (textNewFontSize fontSize w h (resizeBox (textMinSize content) x y w h handle p).width
          (resizeBox (textMinSize content) x y w h handle p).height) content +
      textNewFontSize fontSize w h (resizeBox (textMinSize content) x y w h handle p).width
          (resizeBox (textMinSize content) x y w h handle p).height * 1.2 * 2 =
      textMaxLineWidth m (jsOrStr fs "normal") (jsOrStr fw "normal")
        (textNewFontSize fontSize w h (resizeBox (textMinSize content) x y w h handle p).width
          (resizeBox (textMinSize content) x y w h handle p).height) content +
      2 * (textNewFontSize fontSize w h (resizeBox (textMinSize content) x y w h handle p).width
          (resizeBox (textMinSize content) x y w h handle p).height * 1.2) := by ring
  have hh : textNewFontSize fontSize w h (resizeBox (textMinSize content) x y w h handle p).width
          (resizeBox (textMinSize content) x y w h handle p).height * 1.2 *
        ((textLines content).length : ℝ) +
      textNewFontSize fontSize w h (resizeBox (textMinSize content) x y w h handle p).width
          (resizeBox (textMinSize content) x y w h handle p).height * 0.8 * 2 =
      textNewFontSize fontSize w h (resizeBox (textMinSize content) x y w h handle p).width
          (resizeBox (textMinSize content) x y w h handle p).height * 1.2 *
        ((textLines content).length : ℝ) +
      2 * (textNewFontSize fontSize w h (resizeBox (textMinSize content) x y w h handle p).width
          (resizeBox (textMinSize content) x y w h handle p).height * 0.8) := by ring
  rw [hw, hh]
  exact ⟨rfl, rfl, le_max_left _ _, le_max_left _ _, le_max_right _ _, le_max_right _ _⟩

/-! C1 — fixed edges under bottomRight and topLeft resize. -/

/-- C1 (amended): for every rectangle, resizing via bottomRight leaves x
and y unchanged and resizing via topLeft leaves x+width and y+height
unchanged; for every text shape, bottomRight leaves x and y unchanged, and
topLeft leaves x+width and y+height unchanged provided the geometrically
resized box already meets the measured text minimum (otherwise the
minimum-size clamp grows width or height while the left and top edges stay
where the handle put them, moving the opposite edge). -/
theorem resize_fixed_edges :
    (∀ (i c : String) (x y w h : ℝ) (m : MeasureFn ℝ) (p d : Pt ℝ),
      xOf (resizeShape Real.sqrt m (Shape.rect i c x y w h) Handle.bottomRight p d) = x ∧
      yOf (resizeShape Real.sqrt m (Shape.rect i c x y w h) Handle.bottomRight p d) = y) ∧
    (∀ (i c : String) (x y w h : ℝ) (m : MeasureFn ℝ) (p d : Pt ℝ),
      xOf (resizeShape Real.sqrt m (Shape.rect i c x y w h) Handle.topLeft p d) +
        widthOf (resizeShape Real.sqrt m (Shape.rect i c x y w h) Handle.topLeft p d) = x + w ∧
      yOf (resizeShape Real.sqrt m (Shape.rect i c x y w h) Handle.topLeft p d) +
        heightOf (resizeShape Real.sqrt m (Shape.rect i c x y w h) Handle.topLeft p d) = y + h) ∧
    (∀ (i c : String) (x y w h : ℝ) (content : Option String) (fontSize : Option ℝ)
      (align valign fw fs : Option String) (m : MeasureFn ℝ) (p d : Pt ℝ),
      xOf (resizeShape Real.sqrt m (Shape.text i c x y w h content fontSize align valign fw fs)
        Handle.bottomRight p d) = x ∧
      yOf (resizeShape Real.sqrt m (Shape.text i c x y w h content fontSize align valign fw fs)
        Handle.bottomRight p d) = y) ∧
    (∀ (i c : String) (x y w h : ℝ) (content : Option String) (fontSize : Option ℝ)
      (align valign fw fs : Option String) (m : MeasureFn ℝ) (p d : Pt ℝ),
      textMinWidth m (jsOrStr fs "normal") (jsOrStr fw "normal")
          (textNewFontSize fontSize w h
            (resizeBox (textMinSize content) x y w h Handle.topLeft p).width
            (resizeBox (textMinSize content) x y w h Handle.topLeft p).height) content ≤
        (resizeBox (textMinSize content) x y w h Handle.topLeft p).width →
      textMinHeight
          (textNewFontSize fontSize w h
            (resizeBox (textMinSize content) x y w h Handle.topLeft p).width
            (resizeBox (textMinSize content) x y w h Handle.topLeft p).height) content ≤
        (resizeBox (textMinSize content) x y w h Handle.topLeft p).height →
      xOf (resizeShape Real.sqrt m (Shape.text i c x y w h content fontSize align valign fw fs)
          Handle.topLeft p d) +
        widthOf (resizeShape Real.sqrt m
          (Shape.text i c x y w h content fontSize align valign fw fs) Handle.topLeft p d) =
        x + w ∧
      yOf (resizeShape Real.sqrt m (Shape.text i c x y w h content fontSize align valign fw fs)
          Handle.topLeft p d) +
        heightOf (resizeShape Real.sqrt m
          (Shape.text i c x y w h content fontSize align valign fw fs) Handle.topLeft p d) =
        y + h) := by
  refine ⟨?_, ?_, ?_, ?_⟩
  · intro i c x y w h m p d
    simp [resizeShape, resizeBox, xOf, yOf]
  · intro i c x y w h m p d
    simp only [resizeShape, resizeBox, xOf, yOf, widthOf, heightOf]
    constructor <;> ring
  · intro i c x y w h content fontSize align valign fw fs m p d
    simp [resizeShape, resizeBox, xOf, yOf]
  · intro i c x y w h content fontSize align valign fw fs m p d h1 h2
    simp only [resizeShape, xOf, yOf, widthOf, heightOf]
    rw [max_eq_left h1, max_eq_left h2]
    simp only [resizeBox]
    constructor <;> ring

/-- C1 witness: a concrete text shape (1000 by 1000, text a, font size 16)
resized via topLeft to (500, 500) satisfies the minimum-size side
conditions, and the sums x+width and y+height are indeed preserved. -/
theorem resize_fixed_edges_witness :
    (textMinWidth (approxMeasure (K := ℝ)) (jsOrStr none "normal") (jsOrStr none "normal")
        (textNewFontSize (some 16) 1000 1000
          (resizeBox (textMinSize (some "a")) 0 0 1000 1000 Handle.topLeft ⟨500, 500⟩).width
          (resizeBox (textMinSize (some "a")) 0 0 1000 1000 Handle.topLeft ⟨500, 500⟩).height)
        (some "a") ≤
      (resizeBox (textMinSize (some "a")) 0 0 1000 1000 Handle.topLeft ⟨500, 500⟩).width) ∧
    (xOf (resizeShape Real.sqrt approxMeasure
        (Shape.text "t2" "black" 0 0 1000 1000 (some "a") (some 16) none none none none)
        Handle.topLeft ⟨500, 500⟩ ⟨0, 0⟩) +
      widthOf (resizeShape Real.sqrt approxMeasure
        (Shape.text "t2" "black" 0 0 1000 1000 (some "a") (some 16) none none none none)
        Handle.topLeft ⟨500, 500⟩ ⟨0, 0⟩) = 0 + 1000) := by
  have hmin : textMinSize (K := ℝ) (some "a") = 20 := by
    simp only [textMinSize]
    rw [if_neg (by decide : ¬("a".length = 0))]
    norm_num [max_def, show "a".length = 1 from rfl]
  have hb : resizeBox (K := ℝ) (textMinSize (some "a")) 0 0 1000 1000 Handle.topLeft
      ⟨500, 500⟩ = Box.mk 500 500 500 500 := by
    rw [hmin]
    simp only [resizeBox]
    norm_num [min_def]
  have hnf : textNewFontSize (K := ℝ) (some 16) 1000 1000 500 500 = 12 := by
    simp only [textNewFontSize, jsOrNum]
    norm_num [round_eq, min_def, max_def]
  have hmw : textMinWidth (approxMeasure (K := ℝ)) "normal" "normal" 12 (some "a") = 80 := by
    simp only [textMinWidth, textMaxLineWidth, approxMeasure]
    rw [show textLines (some "a") = ["a"] from by decide]
    simp only [List.foldl]
    rw [if_neg (by decide : ¬(("a" : String) = ""))]
    norm_num [max_def, show "a".length = 1 from rfl]
  have hmh : textMinHeight (K := ℝ) 12 (some "a") = 40 := by
    simp only [textMinHeight]
    rw [show textLines (some "a") = ["a"] from by decide]
    norm_num [max_def]
  have h1 : textMinWidth (approxMeasure (K := ℝ)) (jsOrStr none "normal") (jsOrStr none "normal")
      (textNewFontSize (some 16) 1000 1000
        (resizeBox (textMinSize (some "a")) 0 0 1000 1000 Handle.topLeft ⟨500, 500⟩).width
        (resizeBox (textMinSize (some "a")) 0 0 1000 1000 Handle.topLeft ⟨500, 500⟩).height)
      (some "a") ≤
      (resizeBox (textMinSize (some "a")) 0 0 1000 1000 Handle.topLeft ⟨500, 500⟩).width := by
    rw [hb]
    simp only [jsOrStr]
    rw [hnf, hmw]
    norm_num
  have h2 : textMinHeight
      (textNewFontSize (some 16) 1000 1000
        (resizeBox (textMinSize (some "a")) 0 0 1000 1000 Handle.topLeft ⟨500, 500⟩).width
        (resizeBox (textMinSize (some "a")) 0 0 1000 1000 Handle.topLeft ⟨500, 500⟩).height)
      (some "a") ≤
      (resizeBox (textMinSize (K := ℝ) (some "a")) 0 0 1000 1000 Handle.topLeft
        ⟨500, 500⟩).height := by
    rw [hb]
    rw [hnf, hmh]
    norm_num
  exact ⟨h1, (resize_fixed_edges.2.2.2 "t2" "black" 0 0 1000 1000 (some "a") (some 16)
    none none none none approxMeasure ⟨500, 500⟩ ⟨0, 0⟩ h1 h2).1⟩

/-- C1 counterexample: the claim fails as stated for text shapes: the
100 by 100 text shape with text a and font size 16 resized via topLeft to
(95, 95) gets its width clamped up to the 80-unit text minimum, so
x+width becomes 160, not the original 100. -/
theorem resize_fixed_edges_cex :
    xOf (resizeShape Real.sqrt approxMeasure
        (Shape.text "t1" "black" 0 0 100 100 (some "a") (some 16) none none none none)
        Handle.topLeft ⟨95, 95⟩ ⟨0, 0⟩) +
      widthOf (resizeShape Real.sqrt approxMeasure
        (Shape.text "t1" "black" 0 0 100 100 (some "a") (some 16) none none none none)
        Handle.topLeft ⟨95, 95⟩ ⟨0, 0⟩) ≠ 0 + 100 := by
  have hmin : textMinSize (K := ℝ) (some "a") = 20 := by
    simp only [textMinSize]
    rw [if_neg (by decide : ¬("a".length = 0))]
    norm_num [max_def, show "a".length = 1 from rfl]
  have hb : resizeBox (K := ℝ) (textMinSize (some "a")) 0 0 100 100 Handle.topLeft
      ⟨95, 95⟩ = Box.mk 80 80 20 20 := by
    rw [hmin]
    simp only [resizeBox]
    norm_num [min_def]
  have hnf : textNewFontSize (K := ℝ) (some 16) 100 100 20 20 = 10 := by
    simp only [textNewFontSize, jsOrNum]
    norm_num [round_eq, min_def, max_def]
  have hmw : textMinWidth (approxMeasure (K := ℝ)) "normal" "normal" 10 (some "a") = 80 := by
    simp only [textMinWidth, textMaxLineWidth, approxMeasure]
    rw [show textLines (some "a") = ["a"] from by decide]
    simp only [List.foldl]
    rw [if_neg (by decide : ¬(("a" : String) = ""))]
    norm_num [max_def, show "a".length = 1 from rfl]
  simp only [resizeShape, xOf, widthOf, jsOrStr, hb]
  rw [hnf, hmw]
  norm_num [max_def]

/-! C3 — the damped font scale of the text resize. -/

/-- C3: for every text shape with a defined nonzero font size and positive
pre-resize dimensions (so the JS real division coincides with field
division), resizeShape sets the new font size to
clamp(round(oldFontSize * scaleFactor), 8, 200) where
scaleFactor = 1*(1-d) + rawScale*d with d = 0.5 and
rawScale = (newWidth/oldWidth + newHeight/oldHeight)/2 computed against
the pre-resize width and height, the new dimensions being those of the
geometric box resize. -/
theorem resize_text_font_scale (i c : String) (x y w h : ℝ) (content : Option String)
    (f : ℝ) (align valign fw fs : Option String) (m : MeasureFn ℝ) (handle : Handle)
    (p d : Pt ℝ) (hf : f ≠ 0) (_hw : 0 < w) (_hh : 0 < h) :
    fontSizeOf (resizeShape Real.sqrt m
      (Shape.text i c x y w h content (some f) align valign fw fs) handle p d) =
    some (((max 8 (min 200 (round (f * (1 * (1 - (0.5 : ℝ)) +
      (((resizeBox (textMinSize content) x y w h handle p).width / w +
        (resizeBox (textMinSize content) x y w h handle p).height / h) / 2) * 0.5))))) : ℤ) :
      ℝ) := by
  simp only [resizeShape, fontSizeOf, textNewFontSize, jsOrNum]
  rw [if_neg hf]

/-- C3 witness: the 200 by 100 text shape with text hi and font size 16
resized via bottomRight to (100, 50) halves both dimensions, giving the
damped scale 0.75 and the new font size 12. -/
theorem resize_text_font_scale_witness :
    ((16 : ℝ) ≠ 0) ∧ ((0 : ℝ) < 200) ∧ ((0 : ℝ) < 100) ∧
    fontSizeOf (resizeShape Real.sqrt approxMeasure
      (Shape.text "t3" "black" 0 0 200 100 (some "hi") (some 16) none none none none)
      Handle.bottomRight ⟨100, 50⟩ ⟨0, 0⟩) = some 12 := by
  refine ⟨by norm_num, by norm_num, by norm_num, ?_⟩
  rw [resize_text_font_scale "t3" "black" 0 0 200 100 (some "hi") 16 none none none none
    approxMeasure Handle.bottomRight ⟨100, 50⟩ ⟨0, 0⟩ (by norm_num) (by norm_num) (by norm_num)]
  have hmin : textMinSize (K := ℝ) (some "hi") = 20 := by
    simp only [textMinSize]
    rw [if_neg (by decide : ¬("hi".length = 0))]
    norm_num [max_def, show "hi".length = 2 from rfl]
  have hb : resizeBox (K := ℝ) (textMinSize (some "hi")) 0 0 200 100 Handle.bottomRight
      ⟨100, 50⟩ = Box.mk 0 0 100 50 := by
    rw [hmin]
    simp only [resizeBox]
    norm_num [max_def]
  rw [hb]
  norm_num [round_eq, min_def, max_def]

/-! C5 — the pencil branch of isPointInShape. -/

theorem sq_sum_eq_zero_iff {K : Type} [LinearOrderedField K] (a b : Pt K) :
    (b.x - a.x) ^ 2 + (b.y - a.y) ^ 2 = 0 ↔ a = b := by
  constructor
  · intro hsum
    have hx : (b.x - a.x) ^ 2 = 0 :=
      le_antisymm (by nlinarith [sq_nonneg (b.y - a.y)]) (sq_nonneg _)
    have hy : (b.y - a.y) ^ 2 = 0 :=
      le_antisymm (by nlinarith [sq_nonneg (b.x - a.x)]) (sq_nonneg _)
    have hx0 : b.x - a.x = 0 := (pow_eq_zero_iff (by norm_num : (2 : ℕ) ≠ 0)).mp hx
    have hy0 : b.y - a.y = 0 := (pow_eq_zero_iff (by norm_num : (2 : ℕ) ≠ 0)).mp hy
    obtain ⟨ax, ay⟩ := a
    obtain ⟨bx, b2⟩ := b
    simp only [Pt.mk.injEq]
    constructor <;> [linarith [sub_eq_zero.mp hx0]; linarith [sub_eq_zero.mp hy0]]
  · rintro rfl
    ring

theorem pencilHit_iff {K : Type} [LinearOrderedField K] (sqrt : K → K) (point : Pt K)
    (pts : List (Pt K)) :
    pencilHit sqrt point pts ↔
      ∃ n a b, pts.get? n = some a ∧ pts.get? (n + 1) = some b ∧ a ≠ b ∧
        specSegmentDistance sqrt point a b ≤ 5 := by
  induction pts with
  | nil =>
      simp [pencilHit]
  | cons p1 tail ih =>
      cases tail with
      | nil =>
          simp [pencilHit]
      | cons p2 rest =>
          constructor
          · rintro (⟨hne, hd⟩ | htail)
            · exact ⟨0, p1, p2, rfl, rfl, fun he => hne ((sq_sum_eq_zero_iff p1 p2).mpr he), hd⟩
            · obtain ⟨n, a, b, h1, h2, h3, h4⟩ := (ih.mp htail)
              exact ⟨n + 1, a, b, h1, h2, h3, h4⟩
          · rintro ⟨n, a, b, h1, h2, h3, h4⟩
            cases n with
            | zero =>
                simp only [List.get?] at h1 h2
                obtain rfl : p1 = a := by injection h1
                obtain rfl : p2 = b := by injection h2
                exact Or.inl ⟨fun he => h3 ((sq_sum_eq_zero_iff p1 p2).mp he), h4⟩
            | succ n =>
                exact Or.inr (ih.mpr ⟨n, a, b, h1, h2, h3, h4⟩)

/-- C5: for every pencil shape and every point, the pencil hit test holds
exactly when some segment between consecutive stroke points is a nonzero
segment (zero-length segments are skipped, and the test is total, so no
division by zero) whose clamped point-to-segment distance is at most the
tolerance 5; in particular it is false for an empty or single-point
stroke. -/
theorem pencil_hit_characterization (point : Pt ℝ) (i c : String) (pts : List (Pt ℝ)) :
    (isPointInShape Real.sqrt point (some (Shape.pencil i c pts)) ↔
      ∃ n a b, pts.get? n = some a ∧ pts.get? (n + 1) = some b ∧ a ≠ b ∧
        specSegmentDistance Real.sqrt point a b ≤ 5) ∧
    (pts.length ≤ 1 → ¬ isPointInShape Real.sqrt point (some (Shape.pencil i c pts))) := by
  constructor
  · exact pencilHit_iff Real.sqrt point pts
  · intro hlen
    match pts, hlen with
    | [], _ => simp [isPointInShape, pencilHit]
    | [a], _ => simp [isPointInShape, pencilHit]

/-- C5 witness: the two-point stroke from (0,0) to (10,0) is hit at (5,2)
whose distance to the segment is 2, and not hit at (5,10) whose distance
is 10. -/
theorem pencil_hit_characterization_witness :
    ([(⟨0, 0⟩ : Pt ℝ), ⟨10, 0⟩].length ≤ 1 → False) ∧
    isPointInShape Real.sqrt ⟨5, 2⟩ (some (Shape.pencil "p0" "blue" [⟨0, 0⟩, ⟨10, 0⟩])) ∧
    ¬ isPointInShape Real.sqrt ⟨5, 10⟩ (some (Shape.pencil "p0" "blue" [⟨0, 0⟩, ⟨10, 0⟩])) := by
  have ht2 : segT (⟨5, 2⟩ : Pt ℝ) ⟨0, 0⟩ ⟨10, 0⟩ = 1 / 2 := by
    simp only [segT]
    norm_num [min_def, max_def]
  have ht10 : segT (⟨5, 10⟩ : Pt ℝ) ⟨0, 0⟩ ⟨10, 0⟩ = 1 / 2 := by
    simp only [segT]
    norm_num [min_def, max_def]
  refine ⟨by simp, ?_, ?_⟩
  · refine (pencil_hit_characterization ⟨5, 2⟩ "p0" "blue" [⟨0, 0⟩, ⟨10, 0⟩]).1.mpr
      ⟨0, ⟨0, 0⟩, ⟨10, 0⟩, rfl, rfl, by simp [Pt.mk.injEq], ?_⟩
    simp only [specSegmentDistance, ht2]
    rw [show ((5 : ℝ) - (0 + 1 / 2 * (10 - 0))) ^ 2 + ((2 : ℝ) - (0 + 1 / 2 * (0 - 0))) ^ 2 =
      2 ^ 2 by norm_num]
    rw [Real.sqrt_sq (by norm_num : (0 : ℝ) ≤ 2)]
    norm_num
  · intro hhit
    obtain ⟨n, a, b, h1, h2, h3, h4⟩ :=
      (pencil_hit_characterization ⟨5, 10⟩ "p0" "blue" [⟨0, 0⟩, ⟨10, 0⟩]).1.mp hhit
    match n, h1, h2 with
    | 0, h1, h2 =>
        obtain rfl : (⟨0, 0⟩ : Pt ℝ) = a := by injection h1
        obtain rfl : (⟨10, 0⟩ : Pt ℝ) = b := by injection h2
        rw [specSegmentDistance, ht10] at h4
        rw [show ((5 : ℝ) - (0 + 1 / 2 * (10 - 0))) ^ 2 +
          ((10 : ℝ) - (0 + 1 / 2 * (0 - 0))) ^ 2 = 10 ^ 2 by norm_num] at h4
        rw [Real.sqrt_sq (by norm_num : (0 : ℝ) ≤ 10)] at h4
        norm_num at h4
    | (n + 1), h1, h2 =>
        simp at h2

/-! C6 — the pencil bounding box. -/

theorem foldl_min_le_init {α : Type} [LinearOrder α] (l : List α) (a : α) :
    l.foldl min a ≤ a := by
  induction l generalizing a with
  | nil => exact le_refl a
  | cons x l ih => exact le_trans (ih (min a x)) (min_le_left a x)

theorem foldl_min_le_mem {α : Type} [LinearOrder α] (l : List α) (a : α) {b : α}
    (hb : b ∈ l) : l.foldl min a ≤ b := by
  induction l generalizing a with
  | nil => cases hb
  | cons x l ih =>
      rcases List.mem_cons.mp hb with rfl | hb2
      · exact le_trans (foldl_min_le_init l (min a b)) (min_le_right a b)
      · exact ih _ hb2

theorem foldl_min_attained {α : Type} [LinearOrder α] (l : List α) (a : α) :
    l.foldl min a = a ∨ l.foldl min a ∈ l := by
  induction l generalizing a with
  | nil => exact Or.inl rfl
  | cons x l ih =>
      rcases ih (min a x) with h | h
      · rcases min_choice a x with h2 | h2
        · exact Or.inl (by rw [List.foldl_cons, h, h2])
        · exact Or.inr (by rw [List.foldl_cons, h, h2]; exact List.mem_cons_self x l)
      · exact Or.inr (List.mem_cons_of_mem x h)

theorem le_foldl_max_init {α : Type} [LinearOrder α] (l : List α) (a : α) :
    a ≤ l.foldl max a := by
  induction l generalizing a with
  | nil => exact le_refl a
  | cons x l ih => exact le_trans (le_max_left a x) (ih (max a x))

theorem le_foldl_max_mem {α : Type} [LinearOrder α] (l : List α) (a : α) {b : α}
    (hb : b ∈ l) : b ≤ l.foldl max a := by
  induction l generalizing a with
  | nil => cases hb
  | cons x l ih =>
      rcases List.mem_cons.mp hb with rfl | hb2
      · exact le_trans (le_max_right a b) (le_foldl_max_init l (max a b))
      · exact ih _ hb2

theorem foldl_max_attained {α : Type} [LinearOrder α] (l : List α) (a : α) :
    l.foldl max a = a ∨ l.foldl max a ∈ l := by
  induction l generalizing a with
  | nil => exact Or.inl rfl
  | cons x l ih =>
      rcases ih (max a x) with h | h
      · rcases max_choice a x with h2 | h2
        · exact Or.inl (by rw [List.foldl_cons, h, h2])
        · exact Or.inr (by rw [List.foldl_cons, h, h2]; exact List.mem_cons_self x l)
      · exact Or.inr (List.mem_cons_of_mem x h)

/-- C6 (amended): for every pencil shape with at least one point, the
legacy shapeManipulation getShapeBoundingBox is the axis-aligned box
enclosing all stroke points, with x and y the coordinate minima and
x+width and y+height the coordinate maxima, each attained by some stroke
point; the getShapeBoundingBox re-exported from ShapeDetection.js has no
pencil case and instead returns the zero box for every pencil shape. -/
theorem pencil_bbox (i c : String) (p0 : Pt ℝ) (rest : List (Pt ℝ)) :
    (∀ q ∈ p0 :: rest,
      (getShapeBoundingBoxLegacy (some (Shape.pencil i c (p0 :: rest)))).x ≤ q.x ∧
      q.x ≤ (getShapeBoundingBoxLegacy (some (Shape.pencil i c (p0 :: rest)))).x +
        (getShapeBoundingBoxLegacy (some (Shape.pencil i c (p0 :: rest)))).width ∧
      (getShapeBoundingBoxLegacy (some (Shape.pencil i c (p0 :: rest)))).y ≤ q.y ∧
      q.y ≤ (getShapeBoundingBoxLegacy (some (Shape.pencil i c (p0 :: rest)))).y +
        (getShapeBoundingBoxLegacy (some (Shape.pencil i c (p0 :: rest)))).height) ∧
    (∃ q ∈ p0 :: rest,
      q.x = (getShapeBoundingBoxLegacy (some (Shape.pencil i c (p0 :: rest)))).x) ∧
    (∃ q ∈ p0 :: rest,
      q.x = (getShapeBoundingBoxLegacy (some (Shape.pencil i c (p0 :: rest)))).x +
        (getShapeBoundingBoxLegacy (some (Shape.pencil i c (p0 :: rest)))).width) ∧
    (∃ q ∈ p0 :: rest,
      q.y = (getShapeBoundingBoxLegacy (some (Shape.pencil i c (p0 :: rest)))).y) ∧
    (∃ q ∈ p0 :: rest,
      q.y = (getShapeBoundingBoxLegacy (some (Shape.pencil i c (p0 :: rest)))).y +
        (getShapeBoundingBoxLegacy (some (Shape.pencil i c (p0 :: rest)))).height) ∧
    getShapeBoundingBox (some (Shape.pencil i c (p0 :: rest))) = some (Box.mk 0 0 0 0) := by
  have hx : (getShapeBoundingBoxLegacy (some (Shape.pencil i c (p0 :: rest)))).x =
      (rest.map Pt.x).foldl min p0.x := by
    simp only [getShapeBoundingBoxLegacy]
    rw [List.foldl_map]
  have hy : (getShapeBoundingBoxLegacy (some (Shape.pencil i c (p0 :: rest)))).y =
      (rest.map Pt.y).foldl min p0.y := by
    simp only [getShapeBoundingBoxLegacy]
    rw [List.foldl_map]
  have hxw : (getShapeBoundingBoxLegacy (some (Shape.pencil i c (p0 :: rest)))).x +
      (getShapeBoundingBoxLegacy (some (Shape.pencil i c (p0 :: rest)))).width =
      (rest.map Pt.x).foldl max p0.x := by
    simp only [getShapeBoundingBoxLegacy]
    rw [List.foldl_map]
    ring
  have hyh : (getShapeBoundingBoxLegacy (some (Shape.pencil i c (p0 :: rest)))).y +
      (getShapeBoundingBoxLegacy (some (Shape.pencil i c (p0 :: rest)))).height =
      (rest.map Pt.y).foldl max p0.y := by
    simp only [getShapeBoundingBoxLegacy]
    rw [List.foldl_map]
    ring
  refine ⟨?_, ?_, ?_, ?_, ?_, rfl⟩
  · intro q hq
    rw [hxw, hyh, hx, hy]
    rcases List.mem_cons.mp hq with rfl | hq2
    · exact ⟨foldl_min_le_init _ _, le_foldl_max_init _ _,
        foldl_min_le_init _ _, le_foldl_max_init _ _⟩
    · exact ⟨foldl_min_le_mem _ _ (List.mem_map_of_mem Pt.x hq2),
        le_foldl_max_mem _ _ (List.mem_map_of_mem Pt.x hq2),
        foldl_min_le_mem _ _ (List.mem_map_of_mem Pt.y hq2),
        le_foldl_max_mem _ _ (List.mem_map_of_mem Pt.y hq2)⟩
  · rw [hx]
    rcases foldl_min_attained (rest.map Pt.x) p0.x with h | h
    · exact ⟨p0, List.mem_cons_self p0 rest, h.symm⟩
    · obtain ⟨q, hq, hqx⟩ := List.mem_map.mp h
      exact ⟨q, List.mem_cons_of_mem _ hq, hqx⟩
  · rw [hxw]
    rcases foldl_max_attained (rest.map Pt.x) p0.x with h | h
    · exact ⟨p0, List.mem_cons_self p0 rest, h.symm⟩
    · obtain ⟨q, hq, hqx⟩ := List.mem_map.mp h
      exact ⟨q, List.mem_cons_of_mem _ hq, hqx⟩
  · rw [hy]
    rcases foldl_min_attained (rest.map Pt.y) p0.y with h | h
    · exact ⟨p0, List.mem_cons_self p0 rest, h.symm⟩
    · obtain ⟨q, hq, hqy⟩ := List.mem_map.mp h
      exact ⟨q, List.mem_cons_of_mem _ hq, hqy⟩
  · rw [hyh]
    rcases foldl_max_attained (rest.map Pt.y) p0.y with h | h
    · exact ⟨p0, List.mem_cons_self p0 rest, h.symm⟩
    · obtain ⟨q, hq, hqy⟩ := List.mem_map.mp h
      exact ⟨q, List.mem_cons_of_mem _ hq, hqy⟩

/-- C6 counterexample: on the two-point pencil stroke (3,4), (7,2) the
getShapeBoundingBox re-exported from ShapeDetection.js returns the zero
box, not the enclosing box (3, 2, 4, 2) the claim asks for. -/
theorem pencil_bbox_cex :
    getShapeBoundingBox (some (Shape.pencil "p1" "blue" [(⟨3, 4⟩ : Pt ℝ), ⟨7, 2⟩])) =
      some (Box.mk 0 0 0 0) ∧
    Box.mk (0 : ℝ) 0 0 0 ≠ Box.mk 3 2 4 2 := by
  refine ⟨rfl, ?_⟩
  intro h
  injection h with h1 h2 h3 h4
  norm_num at h1

/-! C8 — round trip from getShapeResizeHandles through getResizeHandle. -/

/-- C8 (amended): for every shape whose bounding box is strictly wider and
taller than 12 units, getResizeHandle at the position of each of the eight
handles returned by getShapeResizeHandles returns that handle name.  (For
smaller boxes the 12-unit hit regions of different handles overlap and an
earlier handle in the fixed enumeration order can win.) -/
theorem handle_roundtrip (s : Shape ℝ) (hw : 12 < (boundingBox s).width)
    (hh : 12 < (boundingBox s).height) :
    ∀ nh ∈ getShapeResizeHandles (some s),
      getResizeHandle (Pt.mk nh.x nh.y) (some s) = some nh.name := by
  intro nh hmem
  simp only [getShapeResizeHandles, List.mem_cons, List.not_mem_nil, or_false] at hmem
  rcases hmem with rfl | rfl | rfl | rfl | rfl | rfl | rfl | rfl <;>
    simp only [getResizeHandle]
  · rw [if_pos (by constructor <;> (rw [abs_le]; constructor <;> linarith))]
  · rw [if_neg (by rintro ⟨h1, h2⟩; rw [abs_le] at h1 h2; exact absurd h1.2 (by push_neg; linarith)),
      if_neg (by rintro ⟨h1, h2⟩; rw [abs_le] at h1 h2; exact absurd h1.2 (by push_neg; linarith)),
      if_pos (by constructor <;> (rw [abs_le]; constructor <;> linarith))]
  · rw [if_neg (by rintro ⟨h1, h2⟩; rw [abs_le] at h1 h2; exact absurd h2.2 (by push_neg; linarith)),
      if_neg (by rintro ⟨h1, h2⟩; rw [abs_le] at h1 h2; exact absurd h1.1 (by push_neg; linarith)),
      if_neg (by rintro ⟨h1, h2⟩; rw [abs_le] at h1 h2; exact absurd h1.1 (by push_neg; linarith)),
      if_neg (by rintro ⟨h1, h2⟩; rw [abs_le] at h1 h2; exact absurd h2.2 (by push_neg; linarith)),
      if_neg (by rintro ⟨h1, h2⟩; rw [abs_le] at h1 h2; exact absurd h1.1 (by push_neg; linarith)),
      if_pos (by constructor <;> (rw [abs_le]; constructor <;> linarith))]
  · rw [if_neg (by rintro ⟨h1, h2⟩; rw [abs_le] at h1 h2; exact absurd h1.2 (by push_neg; linarith)),
      if_neg (by rintro ⟨h1, h2⟩; rw [abs_le] at h1 h2; exact absurd h1.2 (by push_neg; linarith)),
      if_neg (by rintro ⟨h1, h2⟩; rw [abs_le] at h1 h2; exact absurd h2.2 (by push_neg; linarith)),
      if_neg (by rintro ⟨h1, h2⟩; rw [abs_le] at h1 h2; exact absurd h1.2 (by push_neg; linarith)),
      if_neg (by rintro ⟨h1, h2⟩; rw [abs_le] at h1 h2; exact absurd h2.2 (by push_neg; linarith)),
      if_neg (by rintro ⟨h1, h2⟩; rw [abs_le] at h1 h2; exact absurd h1.2 (by push_neg; linarith)),
      if_neg (by rintro ⟨h1, h2⟩; rw [abs_le] at h1 h2; exact absurd h1.2 (by push_neg; linarith)),
      if_pos (by constructor <;> (rw [abs_le]; constructor <;> linarith))]
  · rw [if_neg (by rintro ⟨h1, h2⟩; rw [abs_le] at h1 h2; exact absurd h1.2 (by push_neg; linarith)),
      if_pos (by constructor <;> (rw [abs_le]; constructor <;> linarith))]
  · rw [if_neg (by rintro ⟨h1, h2⟩; rw [abs_le] at h1 h2; exact absurd h1.2 (by push_neg; linarith)),
      if_neg (by rintro ⟨h1, h2⟩; rw [abs_le] at h1 h2; exact absurd h1.2 (by push_neg; linarith)),
      if_neg (by rintro ⟨h1, h2⟩; rw [abs_le] at h1 h2; exact absurd h2.2 (by push_neg; linarith)),
      if_neg (by rintro ⟨h1, h2⟩; rw [abs_le] at h1 h2; exact absurd h1.2 (by push_neg; linarith)),
      if_pos (by constructor <;> (rw [abs_le]; constructor <;> linarith))]
  · rw [if_neg (by rintro ⟨h1, h2⟩; rw [abs_le] at h1 h2; exact absurd h1.2 (by push_neg; linarith)),
      if_neg (by rintro ⟨h1, h2⟩; rw [abs_le] at h1 h2; exact absurd h2.2 (by push_neg; linarith)),
      if_neg (by rintro ⟨h1, h2⟩; rw [abs_le] at h1 h2; exact absurd h1.1 (by push_neg; linarith)),
      if_neg (by rintro ⟨h1, h2⟩; rw [abs_le] at h1 h2; exact absurd h1.2 (by push_neg; linarith)),
      if_neg (by rintro ⟨h1, h2⟩; rw [abs_le] at h1 h2; exact absurd h1.1 (by push_neg; linarith)),
      if_neg (by rintro ⟨h1, h2⟩; rw [abs_le] at h1 h2; exact absurd h1.2 (by push_neg; linarith)),
      if_pos (by constructor <;> (rw [abs_le]; constructor <;> linarith))]
  · rw [if_neg (by rintro ⟨h1, h2⟩; rw [abs_le] at h1 h2; exact absurd h2.2 (by push_neg; linarith)),
      if_neg (by rintro ⟨h1, h2⟩; rw [abs_le] at h1 h2; exact absurd h1.1 (by push_neg; linarith)),
      if_neg (by rintro ⟨h1, h2⟩; rw [abs_le] at h1 h2; exact absurd h1.1 (by push_neg; linarith)),
      if_pos (by constructor <;> (rw [abs_le]; constructor <;> linarith))]

/-- C8 witness: the 100 by 50 rectangle satisfies the size hypotheses, and
getResizeHandle at the bottomRight handle position (100, 50) returns
bottomRight. -/
theorem handle_roundtrip_witness :
    ((12 : ℝ) < (boundingBox (Shape.rect "r2" "red" (0 : ℝ) 0 100 50)).width) ∧
    ((12 : ℝ) < (boundingBox (Shape.rect "r2" "red" (0 : ℝ) 0 100 50)).height) ∧
    getResizeHandle (Pt.mk (100 : ℝ) 50) (some (Shape.rect "r2" "red" 0 0 100 50)) =
      some Handle.bottomRight := by
  have hw : (12 : ℝ) < (boundingBox (Shape.rect "r2" "red" (0 : ℝ) 0 100 50)).width := by
    norm_num [boundingBox]
  have hh : (12 : ℝ) < (boundingBox (Shape.rect "r2" "red" (0 : ℝ) 0 100 50)).height := by
    norm_num [boundingBox]
  have hmem : (⟨Handle.bottomRight, 100, 50⟩ : NamedHandle ℝ) ∈
      getShapeResizeHandles (some (Shape.rect "r2" "red" (0 : ℝ) 0 100 50)) := by
    simp only [getShapeResizeHandles, boundingBox, List.mem_cons]
    norm_num [NamedHandle.mk.injEq]
  exact ⟨hw, hh,
    handle_roundtrip (Shape.rect "r2" "red" 0 0 100 50) hw hh ⟨Handle.bottomRight, 100, 50⟩ hmem⟩

/-- C8 counterexample: on a 10 by 10 rectangle the bottomRight handle
position (10, 10) is first captured by the middleRight hit region, so
getResizeHandle returns middleRight, not bottomRight. -/
theorem handle_roundtrip_cex :
    (⟨Handle.bottomRight, 10, 10⟩ : NamedHandle ℝ) ∈
      getShapeResizeHandles (some (Shape.rect "r1" "red" 0 0 10 10)) ∧
    getResizeHandle (Pt.mk (10 : ℝ) 10) (some (Shape.rect "r1" "red" 0 0 10 10)) =
      some Handle.middleRight ∧
    Handle.middleRight ≠ Handle.bottomRight := by
  refine ⟨?_, ?_, by decide⟩
  · simp only [getShapeResizeHandles, boundingBox, List.mem_cons]
    norm_num [NamedHandle.mk.injEq]
  · simp only [getResizeHandle, boundingBox]
    rw [if_neg (by rintro ⟨h1, h2⟩; norm_num [abs_le] at h1),
      if_neg (by rintro ⟨h1, h2⟩; norm_num [abs_le] at h2),
      if_neg (by rintro ⟨h1, h2⟩; norm_num [abs_le] at h2),
      if_neg (by rintro ⟨h1, h2⟩; norm_num [abs_le] at h1),
      if_pos (by constructor <;> norm_num [abs_le])]

/-! C9 — idempotence of resizeShape. -/

omit [FloorRing K] in
theorem resizeBox_idem (minSize x y w h : K) (handle : Handle) (p : Pt K) :
    resizeBox minSize (resizeBox minSize x y w h handle p).x
      (resizeBox minSize x y w h handle p).y
      (resizeBox minSize x y w h handle p).width
      (resizeBox minSize x y w h handle p).height handle p =
    resizeBox minSize x y w h handle p := by
  cases handle <;> simp only [resizeBox] <;> congr 1 <;> ring_nf

/-- C9 (amended): resizeShape is idempotent on every non-text shape: for a
rectangle the fixed edges are reconstructed identically on the second
application, a circle keeps its center and drag distance, and a pencil is
returned unchanged.  (For text shapes a second application can differ
because the damped font scale restarts from the already clamped
dimensions.) -/
theorem resize_idempotent (m : MeasureFn ℝ) (s : Shape ℝ) (handle : Handle) (p d : Pt ℝ)
    (hs : typeName s ≠ "text") :
    resizeShape Real.sqrt m (resizeShape Real.sqrt m s handle p d) handle p d =
      resizeShape Real.sqrt m s handle p d := by
  cases s with
  | rect i c x y w h =>
      simp only [resizeShape]
      rw [resizeBox_idem]
  | circle i c x y r =>
      simp only [resizeShape]
      congr 1 <;> ring_nf
  | pencil i c pts => rfl
  | text i c x y w h content fontSize align valign fw fs =>
      exact absurd rfl hs

/-- C9 witness: re-applying the bottomRight resize of a 100 by 50
rectangle toward (150, 80) returns the same shape as applying it once. -/
theorem resize_idempotent_witness :
    typeName (Shape.rect "r9" "red" (0 : ℝ) 0 100 50) ≠ "text" ∧
    resizeShape Real.sqrt approxMeasure
        (resizeShape Real.sqrt approxMeasure (Shape.rect "r9" "red" 0 0 100 50)
          Handle.bottomRight ⟨150, 80⟩ ⟨0, 0⟩) Handle.bottomRight ⟨150, 80⟩ ⟨0, 0⟩ =
      resizeShape Real.sqrt approxMeasure (Shape.rect "r9" "red" 0 0 100 50)
        Handle.bottomRight ⟨150, 80⟩ ⟨0, 0⟩ :=
  ⟨by decide, resize_idempotent approxMeasure (Shape.rect "r9" "red" 0 0 100 50)
    Handle.bottomRight ⟨150, 80⟩ ⟨0, 0⟩ (by decide)⟩

/-- C9 counterexample: on the 200 by 200 text shape with text a and font
size 16, the bottomRight resize toward (50, 50) yields font size 10 with
the box clamped to 80 by 50; applying the same resize again restarts the
damped scale from the clamped dimensions and yields font size 9, so
resizeShape is not idempotent. -/
theorem resize_idempotent_cex :
    resizeShape Real.sqrt approxMeasure
        (resizeShape Real.sqrt approxMeasure
          (Shape.text "t9" "black" 0 0 200 200 (some "a") (some 16) none none none none)
          Handle.bottomRight ⟨50, 50⟩ ⟨0, 0⟩) Handle.bottomRight ⟨50, 50⟩ ⟨0, 0⟩ ≠
      resizeShape Real.sqrt approxMeasure
        (Shape.text "t9" "black" 0 0 200 200 (some "a") (some 16) none none none none)
        Handle.bottomRight ⟨50, 50⟩ ⟨0, 0⟩ := by
  have hmin : textMinSize (K := ℝ) (some "a") = 20 := by
    simp only [textMinSize]
    rw [if_neg (by decide : ¬("a".length = 0))]
    norm_num [max_def, show "a".length = 1 from rfl]
  have hlines : textLines (some "a") = ["a"] := by decide
  have hmw10 : textMinWidth (approxMeasure (K := ℝ)) "normal" "normal" 10 (some "a") = 80 := by
    simp only [textMinWidth, textMaxLineWidth, approxMeasure, hlines]
    simp only [List.foldl]
    rw [if_neg (by decide : ¬(("a" : String) = ""))]
    norm_num [max_def, show "a".length = 1 from rfl]
  have hmw9 : textMinWidth (approxMeasure (K := ℝ)) "normal" "normal" 9 (some "a") = 80 := by
    simp only [textMinWidth, textMaxLineWidth, approxMeasure, hlines]
    simp only [List.foldl]
    rw [if_neg (by decide : ¬(("a" : String) = ""))]
    norm_num [max_def, show "a".length = 1 from rfl]
  have hmh10 : textMinHeight (K := ℝ) 10 (some "a") = 40 := by
    simp only [textMinHeight, hlines]
    norm_num [max_def]
  have hmh9 : textMinHeight (K := ℝ) 9 (some "a") = 40 := by
    simp only [textMinHeight, hlines]
    norm_num [max_def]
  have hb1 : resizeBox (K := ℝ) (textMinSize (some "a")) 0 0 200 200 Handle.bottomRight
      ⟨50, 50⟩ = Box.mk 0 0 50 50 := by
    rw [hmin]
    simp only [resizeBox]
    norm_num [max_def]
  have hnf1 : textNewFontSize (K := ℝ) (some 16) 200 200 50 50 = 10 := by
    simp only [textNewFontSize, jsOrNum]
    norm_num [round_eq, min_def, max_def]
  have h1 : resizeShape Real.sqrt approxMeasure
      (Shape.text "t9" "black" 0 0 200 200 (some "a") (some 16) none none none none)
      Handle.bottomRight ⟨50, 50⟩ ⟨0, 0⟩ =
      Shape.text "t9" "black" 0 0 80 50 (some "a") (some 10) (some "center") (some "middle")
        none none := by
    simp only [resizeShape, jsOrStr, hb1]
    rw [hnf1, hmw10, hmh10]
    norm_num [max_def]
  have hb2 : resizeBox (K := ℝ) (textMinSize (some "a")) 0 0 80 50 Handle.bottomRight
      ⟨50, 50⟩ = Box.mk 0 0 50 50 := by
    rw [hmin]
    simp only [resizeBox]
    norm_num [max_def]
  have hnf2 : textNewFontSize (K := ℝ) (some 10) 80 50 50 50 = 9 := by
    simp only [textNewFontSize, jsOrNum]
    norm_num [round_eq, min_def, max_def]
  have h2 : resizeShape Real.sqrt approxMeasure
      (Shape.text "t9" "black" 0 0 80 50 (some "a") (some 10) (some "center") (some "middle")
        none none) Handle.bottomRight ⟨50, 50⟩ ⟨0, 0⟩ =
      Shape.text "t9" "black" 0 0 80 50 (some "a") (some 9) (some "center") (some "middle")
        none none := by
    simp only [resizeShape, jsOrStr, ite_self, hb2]
    rw [hnf2, hmw9, hmh9]
    norm_num [max_def]
  rw [h1, h2]
  intro hcon
  simp only [Shape.text.injEq, Option.some.injEq] at hcon
  norm_num at hcon

end KaliDraw
